import Mathlib

set_option maxRecDepth 8000
set_option linter.unusedVariables false

/-!
Verification development for the Hierarchia layout engine.

The engine converts a raw tree (`HRawNode`) into a positioned graph
(`HGraph` of `HGeneration`s of `HGroup`s of `HNode`s/`HSubGroup`s) in two
passes: a structuring pass and a simulation pass that uses a greedy space
allocator (`GSA`) per generation.

Modelling conventions:
* JavaScript numbers are modelled as `ℚ` (all arithmetic in the engine is
  exact: additions, subtractions, halvings, unit shifts).
* `throw` is modelled by `Except LayoutError`.
* Object references to groups are modelled as indices into an arena
  (`List HGroup`), so that in-place mutation of a group is visible both
  through its generation and through the `parentGroup` back-reference,
  exactly as for the shared object references in the source.
* The process-wide mutable `HEngine.config` object is passed explicitly as
  an immutable `Config` snapshot; the static `HGeneration.idIndex` counter
  is threaded explicitly through the structuring pass.
-/

/-- Numeric knobs of `HEngine.config` (flattened: `graph.padding`,
`generation.defaultX/padding/gap`, `node.width/height/gap/maxNameLength/xPadding`,
`text.charWidth/padding`).  `maxNameLength` is a character count, kept as `ℕ`. -/
structure Config where
  graphPadding : ℚ
  generationDefaultX : ℚ
  generationPadding : ℚ
  generationGap : ℚ
  nodeWidth : ℚ
  nodeHeight : ℚ
  nodeGap : ℚ
  nodeMaxNameLength : ℕ
  nodeXPadding : ℚ
  textCharWidth : ℚ
  textPadding : ℚ
deriving DecidableEq, Repr

/-- A 2D point, as in `interfaces/Coordinates`. -/
structure Coordinates where
  x : ℚ
  y : ℚ
deriving DecidableEq, Repr

/-- Every `throw new Error(...)` site of the engine, by message. -/
inductive LayoutError where
  /-- Message `"Invalid dimensions: xFrom must be less than xTo"` (GSA.allocate). -/
  | invalidDimensions
  /-- Message `"Space already allocated at x: " + getOverlapStartX(...)` (GSA.allocate). -/
  | spaceAllocated (conflictX : Option ℚ)
  /-- Message `"Initial generation should always have 1 group."` (HEngine.simulate). -/
  | initialGenGroupCount
  /-- Message `"Coordinates from previously looped generation are undefined."` (HEngine.simulate). -/
  | prevGenCoordsUndefined
  /-- Message `"Child group missing parent."` (HEngine.simulate). -/
  | childGroupMissingParent
  /-- Message `"Parent group missing bottom anchor."` (HEngine.simulate). -/
  | parentGroupMissingAnchor
  /-- The JavaScript `TypeError` raised when `calculateTextWidth` evaluates
  `text.length` with `text === undefined` (see `HNode`: the `name` property
  is never assigned by the constructor). -/
  | nameTypeError
deriving DecidableEq, Repr

/-- Source `interfaces/AllocatedRegion`: a recorded interval `[xFrom, xTo)` tagged
with an id.  The `id: unknown` in the source receives the group object; here
it receives the group's arena index. -/
structure AllocatedRegion where
  id : ℕ
  xFrom : ℚ
  xTo : ℚ
deriving DecidableEq, Repr

namespace GSA

/-- Models `GSA.overlaps`: `regions.some(r => !(dims[1] <= r.xFrom || dims[0] >= r.xTo))`. -/
def overlaps (regions : List AllocatedRegion) (dims : ℚ × ℚ) : Bool :=
  regions.any fun r => !(decide (dims.2 ≤ r.xFrom) || decide (dims.1 ≥ r.xTo))

/-- Models `GSA.getOverlapStartX`: the minimum `xFrom` among the regions overlapping
`dims`, or `null` when none overlaps. -/
def getOverlapStartX (regions : List AllocatedRegion) (dims : ℚ × ℚ) : Option ℚ :=
  match regions.filter fun r => !(decide (dims.2 ≤ r.xFrom) || decide (dims.1 ≥ r.xTo)) with
  | [] => none
  | r :: rs => some ((rs.map (·.xFrom)).foldl min r.xFrom)

/-- Models `GSA.shift`: `dimensions[0] -= amt; dimensions[1] -= amt`.
Exact `ℚ` subtraction stands in for the source's IEEE-754 double subtraction;
the two agree only while the arithmetic stays exact.  On doubles, `x -= amt`
is absorbed (leaves `x` unchanged) once `x`'s ulp exceeds `2 * amt`, e.g. for
`amt = 1` at magnitudes around `1e20`. -/
def shift (dims : ℚ × ℚ) (amt : ℚ) : ℚ × ℚ :=
  (dims.1 - amt, dims.2 - amt)

/-- Termination measure helper (not in the source): the least `xFrom` among
the recorded regions; the shifting loop stops once the candidate's right
bound has passed it. -/
def minFrom : List AllocatedRegion → ℚ
  | [] => 0
  | r :: rs => (rs.map (·.xFrom)).foldl min r.xFrom

/-- The `while (this.overlaps(dimensions)) { this.shift(dimensions, 1); }`
loop of `GSA.allocate`.  This definition is total (each exact unit decrement
strictly shrinks the distance to the least recorded `xFrom`), but totality is
a property of the exact-arithmetic model only: on IEEE-754 doubles the unit
decrement is absorbed at large magnitudes (see `shift`), where the source
loop never terminates — e.g. a candidate at `1e20` against a recorded region
`[0, 1e30)` never moves and the `while` condition stays true.  Conclusions
drawn from this definition therefore transfer to the program only on runs
whose arithmetic stays exact, such as the small-literal traces below. -/
def shiftUntilFree (regions : List AllocatedRegion) (dims : ℚ × ℚ) : ℚ × ℚ :=
  if overlaps regions dims then shiftUntilFree regions (shift dims 1) else dims
termination_by (⌈dims.2 - minFrom regions⌉).toNat
decreasing_by
  rename_i h
  rcases List.any_eq_true.mp h with ⟨r, hr, hb⟩
  have hlt : r.xFrom < dims.2 := by
    simp only [Bool.not_eq_eq_eq_not, Bool.not_true, Bool.or_eq_false_iff,
      decide_eq_false_iff_not, not_le] at hb
    exact hb.1
  have key : ∀ (l : List ℚ) (a : ℚ), l.foldl min a ≤ a ∧ ∀ b ∈ l, l.foldl min a ≤ b := by
    intro l
    induction l with
    | nil =>
      intro a
      refine ⟨le_refl a, ?_⟩
      intro b hb2
      cases hb2
    | cons x xs ih =>
      intro a
      refine ⟨le_trans (ih (min a x)).1 (min_le_left a x), ?_⟩
      intro b hb2
      rcases List.mem_cons.mp hb2 with rfl | hb3
      · exact le_trans (ih (min a b)).1 (min_le_right a b)
      · exact (ih (min a x)).2 b hb3
  have hmin : minFrom regions ≤ r.xFrom := by
    cases regions with
    | nil => cases hr
    | cons a rs =>
      simp only [minFrom]
      rcases List.mem_cons.mp hr with rfl | hmem
      · exact (key (rs.map (·.xFrom)) r.xFrom).1
      · exact (key (rs.map (·.xFrom)) a.xFrom).2 r.xFrom (List.mem_map_of_mem (·.xFrom) hmem)
  have h1 : (1 : ℤ) ≤ ⌈dims.2 - minFrom regions⌉ := Int.one_le_ceil_iff.mpr (by linarith)
  have h2 : ⌈dims.2 - 1 - minFrom regions⌉ = ⌈dims.2 - minFrom regions⌉ - 1 := by
    rw [show dims.2 - 1 - minFrom regions = dims.2 - minFrom regions - 1 by ring,
      Int.ceil_sub_one]
  show (⌈dims.2 - 1 - minFrom regions⌉).toNat < (⌈dims.2 - minFrom regions⌉).toNat
  omega

/-- Models `GSA.allocate(xFrom, xTo, id, upsert)`.  State-passing rendition: takes the
current `regions` list and returns the placed interval together with the new
`regions` list (the source pushes onto `this.regions` and returns the interval). -/
def allocate (regions : List AllocatedRegion) (xFrom xTo : ℚ) (id : ℕ)
    (upsert : Bool) : Except LayoutError ((ℚ × ℚ) × List AllocatedRegion) :=
  if xFrom > xTo then .error .invalidDimensions
  else
    let dims := (xFrom, xTo)
    if overlaps regions dims then
      if upsert then
        let final := shiftUntilFree regions dims
        .ok (final, regions ++ [⟨id, final.1, final.2⟩])
      else
        .error (.spaceAllocated (getOverlapStartX regions dims))
    else
      .ok (dims, regions ++ [⟨id, dims.1, dims.2⟩])

end GSA

/-- The spec's overlap relation on recorded intervals: `[a,b)` and `[c,d)`
overlap iff `NOT(b ≤ c OR a ≥ d)`. -/
def regionsOverlap (r1 r2 : AllocatedRegion) : Prop :=
  ¬(r1.xTo ≤ r2.xFrom ∨ r1.xFrom ≥ r2.xTo)

instance : DecidablePred fun p : AllocatedRegion × AllocatedRegion => regionsOverlap p.1 p.2 :=
  fun _ => by unfold regionsOverlap; infer_instance

/-- Run a sequence of `allocate` requests `(xFrom, xTo, id, upsert)` against one
allocator instance.  A call that throws leaves `this.regions` untouched (the
source throws before pushing), so the recorded state after a mixed sequence is
the state after its successful calls. -/
def applyAllocs : List (ℚ × ℚ × ℕ × Bool) → List AllocatedRegion → List AllocatedRegion
  | [], regions => regions
  | (xFrom, xTo, id, upsert) :: rest, regions =>
    match GSA.allocate regions xFrom xTo id upsert with
    | .ok (_, regions1) => applyAllocs rest regions1
    | .error _ => applyAllocs rest regions

/-- Models `calculateTextWidth` (models/Node.ts): width of the name truncated to
`maxNameLength` characters, times `charWidth`, plus the text `padding`.
`truncLen` is the length of `text.substring(0, maxNameLength)`. -/
def calculateTextWidth (cfg : Config) (text : String) : ℚ :=
  let truncLen : ℕ :=
    if text.length > cfg.nodeMaxNameLength then cfg.nodeMaxNameLength else text.length
  (truncLen : ℚ) * cfg.textCharWidth + cfg.textPadding

/-- The `HNode.xSpace` getter applied to a node whose `name` holds `text`:
`calculateTextWidth(this.name) + HEngine.config.node.xPadding`. -/
def xSpaceOfText (cfg : Config) (text : String) : ℚ :=
  calculateTextWidth cfg text + cfg.nodeXPadding

/-- Source `models/Node.ts` `HNode`.  `name` is `Option String` because the declared
`readonly name: string` property is never assigned: the constructor body
`name = name ?? "Unnamed Node"` rebinds the plain `name` parameter (which has
no access modifier), so `this.name` remains `undefined`. -/
structure HNode where
  id : String
  name : Option String
  x : Option ℚ
  y : Option ℚ
  anchors : Option (Coordinates × Coordinates)
deriving DecidableEq, Repr

/-- Models `new HNode(id, name)`: only `this.id` is assigned; `this.name`, `x`, `y`
and `anchors` stay undefined (see `HNode`). -/
def HNode.make (id : String) (name : Option String) : HNode :=
  { id := id, name := none, x := none, y := none, anchors := none }

/-- The `HNode.xSpace` getter.  With `this.name === undefined` the call
`calculateTextWidth(this.name)` evaluates `text.length` on `undefined` and
throws a `TypeError`. -/
def HNode.xSpace (cfg : Config) (n : HNode) : Except LayoutError ℚ :=
  match n.name with
  | none => .error .nameTypeError
  | some text => .ok (xSpaceOfText cfg text)

/-- Models `Array.prototype.reduce((sum, m) => sum + m.xSpace, acc)` over member
`xSpace` getters, propagating the first thrown error. -/
def reduceXSpace {α : Type} (f : α → Except LayoutError ℚ) :
    List α → ℚ → Except LayoutError ℚ
  | [], acc => .ok acc
  | x :: xs, acc =>
    match f x with
    | .ok w => reduceXSpace f xs (acc + w)
    | .error e => .error e

/-- Source `models/SubGroup.ts` `HSubGroup`. -/
structure HSubGroup where
  x : Option ℚ
  y : Option ℚ
  anchor : Option Coordinates
  members : List HNode
deriving DecidableEq, Repr

/-- Models the `HSubGroup.xSpace` getter: `memberSpace + (members.length - 1) * node.gap`. -/
def HSubGroup.xSpace (cfg : Config) (sg : HSubGroup) : Except LayoutError ℚ :=
  match reduceXSpace (HNode.xSpace cfg) sg.members 0 with
  | .ok memberSpace => .ok (memberSpace + ((sg.members.length : ℚ) - 1) * cfg.nodeGap)
  | .error e => .error e

/-- A group's `anchors` object: `{ top?, bottom? }`. -/
structure GroupAnchors where
  top : Option Coordinates
  bottom : Option Coordinates
deriving DecidableEq, Repr

/-- Source `models/Group.ts` `HGroup`.  `parentGroup` is the non-owning reference to
the parent group, modelled as an index into the group arena. -/
structure HGroup where
  x : Option ℚ
  y : Option ℚ
  members : List HNode
  subGroups : List HSubGroup
  anchors : Option GroupAnchors
  parentGroup : Option ℕ
deriving DecidableEq, Repr

/-- Arena lookup default (JavaScript dereferences object references directly;
every index produced by the structuring pass is in range). -/
def dummyGroup : HGroup :=
  { x := none, y := none, members := [], subGroups := [], anchors := none, parentGroup := none }

/-- Models the `HGroup.xSpace` getter:
`sGroupSpace + nodeSpace + (members.length - 1) * node.gap`. -/
def HGroup.xSpace (cfg : Config) (g : HGroup) : Except LayoutError ℚ :=
  match reduceXSpace (HSubGroup.xSpace cfg) g.subGroups 0 with
  | .error e => .error e
  | .ok sGroupSpace =>
    match reduceXSpace (HNode.xSpace cfg) g.members 0 with
    | .error e => .error e
    | .ok nodeSpace =>
      .ok (sGroupSpace + nodeSpace + ((g.members.length : ℚ) - 1) * cfg.nodeGap)

/-- Source `models/Generation.ts` `HGeneration`.  `groups` holds arena indices. -/
structure HGeneration where
  id : ℕ
  x : Option ℚ
  y : Option ℚ
  xSpace : Option ℚ
  groups : List ℕ
deriving DecidableEq, Repr

/-- Models `new HGeneration(reqId)` with the static `idIndex` counter threaded
explicitly: `this.id = reqId ?? idIndex; idIndex++`. -/
def HGeneration.create (reqId : Option ℕ) (idIndex : ℕ) : HGeneration × ℕ :=
  ({ id := reqId.getD idIndex, x := none, y := none, xSpace := none, groups := [] },
    idIndex + 1)

/-- Source `models/Node.ts` `HGraph`: generations plus the dimension constants the
constructor precomputes. -/
structure HGraph where
  height : ℚ
  width : Option ℚ
  generations : List HGeneration
  genHeight : ℚ
  gapHeight : ℚ
  genSpace : ℚ
  gapSpace : ℚ
deriving DecidableEq, Repr

/-- The `HGraph` constructor: `genHeight = node.height + generation.padding`,
`gapHeight = generation.gap`, `gapAmount = generations.length + 1`,
`height = gapHeight * gapAmount + genHeight * generations.length`. -/
def HGraph.make (cfg : Config) (gens : List HGeneration) : HGraph :=
  let genHeight := cfg.nodeHeight + cfg.generationPadding
  let gapHeight := cfg.generationGap
  let gapAmount : ℕ := gens.length + 1
  let gapSpace := gapHeight * (gapAmount : ℚ)
  let genSpace := genHeight * (gens.length : ℚ)
  { height := gapSpace + genSpace
    width := none
    generations := gens
    genHeight := genHeight
    gapHeight := gapHeight
    genSpace := genSpace
    gapSpace := gapSpace }

/-- Source `interfaces/RawNode.ts` `HRawNode`: the caller-supplied tree. -/
inductive HRawNode where
  | mk (id : String) (name : Option String) (children : List HRawNode)
      (partners : List HRawNode)

/-- Models `HNode.fromRaw(raw)`: `new HNode(raw.id, raw.name)`. -/
def HNode.fromRaw : HRawNode → HNode
  | .mk id name _ _ => HNode.make id name

namespace HEngine

/-- Models `list[depth].groups.push(group)`. -/
def pushGroupAt (gens : List HGeneration) (depth gIdx : ℕ) : List HGeneration :=
  match gens.get? depth with
  | some gen => gens.set depth { gen with groups := gen.groups ++ [gIdx] }
  | none => gens

/-- Models `group.addMembers(node)` on the group at `gIdx`. -/
def addMemberAt (arena : List HGroup) (gIdx : ℕ) (n : HNode) : List HGroup :=
  match arena.get? gIdx with
  | some g => arena.set gIdx { g with members := g.members ++ [n] }
  | none => arena

/-- Models `group.addSubGroups(sGroup)` on the group at `gIdx`. -/
def addSubGroupAt (arena : List HGroup) (gIdx : ℕ) (sg : HSubGroup) : List HGroup :=
  match arena.get? gIdx with
  | some g => arena.set gIdx { g with subGroups := g.subGroups ++ [sg] }
  | none => arena

mutual
/-- Models `HEngine.structure(arr, list, parentGroup, depth)` (the structuring pass;
`structure` is a Lean keyword).  Creates `new HGroup(parentGroup)` (a fresh
arena slot), creates `list[depth]` when absent (in every reachable call
`depth ≤ list.length`, so the conditional append lands at index `depth`),
pushes the group, then runs the `for (const node of arr)` loop. -/
def structurePass (arr : List HRawNode) (gens : List HGeneration) (arena : List HGroup)
    (parentGroup : Option ℕ) (depth : ℕ) (idIndex : ℕ) :
    List HGeneration × List HGroup × ℕ :=
  let gIdx := arena.length
  let arena1 := arena ++
    [{ x := none, y := none, members := [], subGroups := [], anchors := none,
       parentGroup := parentGroup }]
  let created :=
    if depth < gens.length then (gens, idIndex)
    else
      let (gen, idIndex1) := HGeneration.create (some depth) idIndex
      (gens ++ [gen], idIndex1)
  let gens2 := pushGroupAt created.1 depth gIdx
  structureLoop arr gens2 arena1 gIdx depth created.2
termination_by (sizeOf arr, 1)

/-- The `for (const node of arr)` loop body of the structuring pass: convert
the node, attach it (as a subgroup with its partners, or as a plain member),
then recurse into its children at `depth + 1` with the current group as parent. -/
def structureLoop (arr : List HRawNode) (gens : List HGeneration) (arena : List HGroup)
    (gIdx : ℕ) (depth : ℕ) (idIndex : ℕ) :
    List HGeneration × List HGroup × ℕ :=
  match arr with
  | [] => (gens, arena, idIndex)
  | node :: rest =>
    match node with
    | .mk id name children partners =>
      let convNode := HNode.make id name
      let arena1 :=
        if partners.length > 0 then
          addSubGroupAt arena gIdx
            { x := none, y := none, anchor := none,
              members := convNode :: partners.map HNode.fromRaw }
        else
          addMemberAt arena gIdx convNode
      let recursed :=
        if children.length > 0 then
          structurePass children gens arena1 (some gIdx) (depth + 1) idIndex
        else (gens, arena1, idIndex)
      structureLoop rest recursed.1 recursed.2.1 gIdx depth recursed.2.2
termination_by (sizeOf arr, 0)
end

/-- Models `calcGenY`: `currHeight - generation.gap - graph.genHeight`. -/
def calcGenY (cfg : Config) (graph : HGraph) (currHeight : ℚ) : ℚ :=
  currHeight - cfg.generationGap - graph.genHeight

/-- Models `calcGroupY`: `anchor - generation.gap / 2`. -/
def calcGroupY (cfg : Config) (anchor : ℚ) : ℚ :=
  anchor - cfg.generationGap / 2

/-- Models `calcGroupAnchorY`: `currY - graph.genHeight / 2 - graph.padding / 2`. -/
def calcGroupAnchorY (cfg : Config) (graph : HGraph) (currY : ℚ) : ℚ :=
  currY - graph.genHeight / 2 - cfg.graphPadding / 2

/-- The `for (const g of gen.groups)` loop of `HEngine.simulate` for a
generation `i > 0`: check parent and its bottom anchor, build the desired
interval centred on the parent anchor, allocate it with `upsert = true`,
then fill the group's `x`, `y` and anchors.  Threads the per-generation GSA
regions and the running `genDimensions` min/max pair. -/
def simGroups (cfg : Config) (graph : HGraph) :
    List ℕ → List HGroup → List AllocatedRegion → ℚ × ℚ →
    Except LayoutError (List HGroup × List AllocatedRegion × (ℚ × ℚ))
  | [], arena, regions, genDims => .ok (arena, regions, genDims)
  | gIdx :: rest, arena, regions, genDims =>
    let g := arena.getD gIdx dummyGroup
    match g.parentGroup with
    | none => .error .childGroupMissingParent
    | some pIdx =>
      let parent := arena.getD pIdx dummyGroup
      match parent.anchors.bind (·.bottom) with
      | none => .error .parentGroupMissingAnchor
      | some pBottom =>
        let anchorX := pBottom.x
        match HGroup.xSpace cfg g with
        | .error e => .error e
        | .ok w =>
          let halfWidth := w / 2
          match GSA.allocate regions (anchorX - halfWidth) (anchorX + halfWidth) gIdx true with
          | .error e => .error e
          | .ok (d, regions1) =>
            let genDims1 := (min genDims.1 d.1, max genDims.2 d.2)
            let gx := (d.1 + d.2) / 2
            let topY := pBottom.y
            let gy := calcGroupY cfg topY
            let g1 : HGroup := { g with
              x := some gx
              y := some gy
              anchors := some
                { top := some ⟨gx, topY⟩
                  bottom := some ⟨gx, calcGroupAnchorY cfg graph gy⟩ } }
            simGroups cfg graph rest (arena.set gIdx g1) regions1 genDims1

/-- The `i === 0` branch of `HEngine.simulate`: the initial generation must
have exactly one group; it gets the configured origin and a bottom anchor. -/
def simGen0 (cfg : Config) (graph : HGraph) (gen : HGeneration) (arena : List HGroup) :
    Except LayoutError (HGeneration × List HGroup) :=
  if gen.groups.length ≠ 1 then .error .initialGenGroupCount
  else
    let genX := cfg.generationDefaultX
    let genY := graph.height - cfg.graphPadding - graph.genHeight / 2
    let gIdx := gen.groups.headI
    let g := arena.getD gIdx dummyGroup
    let g1 : HGroup := { g with
      x := some genX
      y := some genY
      anchors := some
        { top := none
          bottom := some ⟨genX, calcGroupAnchorY cfg graph genY⟩ } }
    .ok ({ gen with x := some genX, y := some genY }, arena.set gIdx g1)

/-- The `i > 0` iterations of `HEngine.simulate`'s `forEach`:
each generation takes its `x` from the previous generation and its `y` one
step below it, runs its own fresh `GSA` over its groups, records its
`xSpace`, and widens the running graph-wide `leftMostX`/`rightMostX` pair. -/
def simRest (cfg : Config) (graph : HGraph) :
    List HGeneration → HGeneration → List HGroup → ℚ × ℚ →
    Except LayoutError (List HGeneration × List HGroup × (ℚ × ℚ))
  | [], _, arena, graphDims => .ok ([], arena, graphDims)
  | gen :: rest, prevGen, arena, graphDims =>
    match prevGen.x, prevGen.y with
    | some prevX, some prevY =>
      match simGroups cfg graph gen.groups arena [] (0, 0) with
      | .error e => .error e
      | .ok (arena1, _, genDims) =>
        let gen1 : HGeneration := { gen with
          x := some prevX
          y := some (calcGenY cfg graph prevY)
          xSpace := some (genDims.2 - genDims.1) }
        let graphDims1 := (min graphDims.1 genDims.1, max graphDims.2 genDims.2)
        match simRest cfg graph rest gen1 arena1 graphDims1 with
        | .error e => .error e
        | .ok (rest1, arena2, graphDims2) => .ok (gen1 :: rest1, arena2, graphDims2)
    | _, _ => .error .prevGenCoordsUndefined

/-- Models `HEngine.simulate(graph)`: walk the generations (first one specially),
then `graph.width = rightMostX - leftMostX + graph.padding` where the
dimension pair starts as `{leftMostX: 0, rightMostX: 0}`.  Returns the
updated generations, the updated arena, and the width. -/
def simulate (cfg : Config) (graph : HGraph) (arena : List HGroup) :
    Except LayoutError (List HGeneration × List HGroup × ℚ) :=
  match graph.generations with
  | [] => .ok ([], arena, 0 - 0 + cfg.graphPadding)
  | gen0 :: rest =>
    match simGen0 cfg graph gen0 arena with
    | .error e => .error e
    | .ok (gen1, arena1) =>
      match simRest cfg graph rest gen1 arena1 (0, 0) with
      | .error e => .error e
      | .ok (rest1, arena2, graphDims) =>
        .ok (gen1 :: rest1, arena2, graphDims.2 - graphDims.1 + cfg.graphPadding)

/-- Models `HEngine.calculate(initNode)`: structure `[initNode]` into a generation
list, build the `HGraph`, simulate, and return the positioned graph (with its
group arena) together with the updated `HGeneration.idIndex` counter. -/
def calculate (cfg : Config) (initNode : HRawNode) (idIndex : ℕ) :
    Except LayoutError (HGraph × List HGroup) × ℕ :=
  let structured := structurePass [initNode] [] [] none 0 idIndex
  let graph := HGraph.make cfg structured.1
  match simulate cfg graph structured.2.1 with
  | .error e => (.error e, structured.2.2)
  | .ok (gens1, arena1, width) =>
    (.ok ({ graph with generations := gens1, width := some width }, arena1), structured.2.2)

end HEngine

/-! ## Concrete fixtures -/

/-- Node id and name literals used by the concrete runs. -/
def idA : String := "A"

/-- Second node id. -/
def idB : String := "B"

/-- Third node id. -/
def idC : String := "C"

/-- The two-character name used to evaluate the width formula. -/
def nameAB : String := "ab"

/-- The default `HEngine.config` documented in the README.  `nodeXPadding` is
read by the `HNode.xSpace` getter but is not present in any shipped
configuration; it is set to `0` here and is never evaluated by the concrete
runs below that use this configuration. -/
def cfgDefault : Config :=
  { graphPadding := 200
    generationDefaultX := 0
    generationPadding := 0
    generationGap := 100
    nodeWidth := 40
    nodeHeight := 80
    nodeGap := 20
    nodeMaxNameLength := 15
    nodeXPadding := 0
    textCharWidth := 8
    textPadding := 10 }

/-- A configuration with a nonzero `nodeXPadding`, exercising the width formula. -/
def cfgC4 : Config :=
  { cfgDefault with nodeXPadding := 5 }

/-- A configuration with a nonzero generation `padding`, exercising the
graph-height formula. -/
def cfgC6 : Config :=
  { cfgDefault with generationPadding := 50 }

/-- An empty generation value (only its presence matters to `HGraph.make`). -/
def genEmpty : HGeneration :=
  { id := 0, x := none, y := none, xSpace := none, groups := [] }

/-- A single raw node with no name, children or partners. -/
def treeA : HRawNode := .mk idA none [] []

/-- A raw leaf node. -/
def treeB : HRawNode := .mk idB none [] []

/-- A two-generation tree: root `A` with single child `B`. -/
def treeAB : HRawNode := .mk idA none [treeB] []

/-- A node carrying a name (such values are constructible even though
`HNode.make` never produces one; the width getters are functions of the
structure). -/
def nodeNamedA : HNode := { id := idA, name := some idA, x := none, y := none, anchors := none }

/-- A named node `B`. -/
def nodeNamedB : HNode := { id := idB, name := some idB, x := none, y := none, anchors := none }

/-- A named node `C`. -/
def nodeNamedC : HNode := { id := idC, name := some idC, x := none, y := none, anchors := none }

/-- A subgroup holding the two named partner nodes `B`, `C`. -/
def sgBC : HSubGroup := { x := none, y := none, anchor := none, members := [nodeNamedB, nodeNamedC] }

/-- A group holding member `A` and the subgroup `[B, C]`. -/
def gABC : HGroup :=
  { x := none, y := none, members := [nodeNamedA], subGroups := [sgBC], anchors := none,
    parentGroup := none }

/-- Rendered from the words of claim C4: the node width is either the fixed
configured `node.width`, or truncated-name length × `text.charWidth` plus the
configured `text.padding`. -/
def specWidthC4 (cfg : Config) (text : String) (w : ℚ) : Prop :=
  w = cfg.nodeWidth ∨
  w = ((min text.length cfg.nodeMaxNameLength : ℕ) : ℚ) * cfg.textCharWidth + cfg.textPadding

/-- Rendered from the words of claim C6: graph height = generation count ×
(node height + gap) plus one extra gap unit at each end. -/
def specHeightC6 (cfg : Config) (genCount : ℕ) : ℚ :=
  (genCount : ℚ) * (cfg.nodeHeight + cfg.generationGap) + 2 * cfg.generationGap

/-! ## GSA lemmas -/

namespace GSA

theorem overlaps_eq_true_iff (regions : List AllocatedRegion) (dims : ℚ × ℚ) :
    overlaps regions dims = true ↔ ∃ r ∈ regions, r.xFrom < dims.2 ∧ dims.1 < r.xTo := by
  simp only [overlaps, List.any_eq_true, Bool.not_eq_eq_eq_not, Bool.not_true,
    Bool.or_eq_false_iff, decide_eq_false_iff_not, not_le, ge_iff_le]

theorem overlaps_eq_false_iff (regions : List AllocatedRegion) (dims : ℚ × ℚ) :
    overlaps regions dims = false ↔ ∀ r ∈ regions, dims.2 ≤ r.xFrom ∨ r.xTo ≤ dims.1 := by
  constructor
  · intro h r hr
    by_contra hc
    push_neg at hc
    have ht : overlaps regions dims = true :=
      (overlaps_eq_true_iff _ _).mpr ⟨r, hr, hc.1, hc.2⟩
    rw [h] at ht
    cases ht
  · intro h
    by_contra hc
    have ht : overlaps regions dims = true := by
      cases hov : overlaps regions dims
      · exact absurd hov hc
      · rfl
    obtain ⟨r, hr, h1, h2⟩ := (overlaps_eq_true_iff _ _).mp ht
    rcases h r hr with h3 | h3
    · exact absurd h1 (not_lt.mpr h3)
    · exact absurd h2 (not_lt.mpr h3)

theorem minFrom_le {regions : List AllocatedRegion} {r : AllocatedRegion}
    (hr : r ∈ regions) : minFrom regions ≤ r.xFrom := by
  have key : ∀ (l : List ℚ) (a : ℚ), l.foldl min a ≤ a ∧ ∀ b ∈ l, l.foldl min a ≤ b := by
    intro l
    induction l with
    | nil =>
      intro a
      refine ⟨le_refl a, ?_⟩
      intro b hb2
      cases hb2
    | cons x xs ih =>
      intro a
      refine ⟨le_trans (ih (min a x)).1 (min_le_left a x), ?_⟩
      intro b hb2
      rcases List.mem_cons.mp hb2 with rfl | hb3
      · exact le_trans (ih (min a b)).1 (min_le_right a b)
      · exact (ih (min a x)).2 b hb3
  cases regions with
  | nil => cases hr
  | cons a rs =>
    simp only [minFrom]
    rcases List.mem_cons.mp hr with rfl | hmem
    · exact (key (rs.map (·.xFrom)) r.xFrom).1
    · exact (key (rs.map (·.xFrom)) a.xFrom).2 r.xFrom (List.mem_map_of_mem (·.xFrom) hmem)

theorem shiftUntilFree_unfold (regions : List AllocatedRegion) (dims : ℚ × ℚ) :
    shiftUntilFree regions dims =
      if overlaps regions dims then shiftUntilFree regions (shift dims 1) else dims := by
  conv_lhs => unfold shiftUntilFree

theorem exists_shift_free (regions : List AllocatedRegion) (dims : ℚ × ℚ) :
    ∃ n : ℕ, overlaps regions (dims.1 - n, dims.2 - n) = false := by
  refine ⟨(⌈dims.2 - minFrom regions⌉).toNat, ?_⟩
  rw [overlaps_eq_false_iff]
  intro r hr
  left
  have h1 : dims.2 - minFrom regions ≤ ((⌈dims.2 - minFrom regions⌉).toNat : ℚ) := by
    calc dims.2 - minFrom regions ≤ (⌈dims.2 - minFrom regions⌉ : ℚ) :=
          Int.le_ceil _
    _ ≤ ((⌈dims.2 - minFrom regions⌉).toNat : ℚ) := by
          exact_mod_cast Int.self_le_toNat _
  have h2 : minFrom regions ≤ r.xFrom := minFrom_le hr
  simp only [Prod.fst, Prod.snd]
  linarith

theorem shiftUntilFree_eq_of (regions : List AllocatedRegion) (dims : ℚ × ℚ) (k : ℕ)
    (h1 : ∀ j : ℕ, j < k → overlaps regions (dims.1 - j, dims.2 - j) = true)
    (h2 : overlaps regions (dims.1 - k, dims.2 - k) = false) :
    shiftUntilFree regions dims = (dims.1 - k, dims.2 - k) := by
  induction k generalizing dims with
  | zero =>
    rw [shiftUntilFree_unfold]
    simp only [Nat.cast_zero, sub_zero] at h2 ⊢
    rw [show dims = (dims.1, dims.2) from rfl] at h2
    rw [h2]
    simp
  | succ n ih =>
    rw [shiftUntilFree_unfold]
    have h0 : overlaps regions dims = true := by
      have := h1 0 (Nat.succ_pos n)
      simpa using this
    rw [h0]
    simp only [if_true]
    have hmain := ih (shift dims 1) ?_ ?_
    · rw [hmain]
      simp only [shift, Prod.mk.injEq]
      constructor <;> push_cast <;> ring
    · intro j hj
      have := h1 (j + 1) (by omega)
      simp only [shift]
      push_cast at this ⊢
      convert this using 3 <;> ring
    · simp only [shift]
      push_cast at h2 ⊢
      convert h2 using 3 <;> ring

theorem shiftUntilFree_spec (regions : List AllocatedRegion) (dims : ℚ × ℚ) :
    ∃ k : ℕ,
      shiftUntilFree regions dims = (dims.1 - k, dims.2 - k) ∧
      overlaps regions (dims.1 - k, dims.2 - k) = false ∧
      ∀ j : ℕ, j < k → overlaps regions (dims.1 - j, dims.2 - j) = true := by
  have hex := exists_shift_free regions dims
  have hmin := Nat.find_spec hex
  have hlt : ∀ j : ℕ, j < Nat.find hex → overlaps regions (dims.1 - j, dims.2 - j) = true := by
    intro j hj
    have := Nat.find_min hex hj
    simpa using this
  exact ⟨Nat.find hex, shiftUntilFree_eq_of regions dims _ hlt hmin, hmin, hlt⟩

theorem shiftUntilFree_not_overlaps (regions : List AllocatedRegion) (dims : ℚ × ℚ) :
    overlaps regions (shiftUntilFree regions dims) = false := by
  obtain ⟨k, hk, hfree, -⟩ := shiftUntilFree_spec regions dims
  rw [hk]
  exact hfree

theorem allocate_ok_shape {regions : List AllocatedRegion} {xFrom xTo : ℚ} {id : ℕ}
    {upsert : Bool} {d : ℚ × ℚ} {regions1 : List AllocatedRegion}
    (h : allocate regions xFrom xTo id upsert = .ok (d, regions1)) :
    regions1 = regions ++ [⟨id, d.1, d.2⟩] ∧ overlaps regions d = false := by
  by_cases hxt : xFrom > xTo
  · simp [allocate, hxt] at h
  · by_cases hov : overlaps regions (xFrom, xTo) = true
    · cases upsert with
      | false => simp [allocate, hxt, hov] at h
      | true =>
        simp only [allocate, hxt, if_false, hov, if_true, Except.ok.injEq,
          Prod.mk.injEq] at h
        obtain ⟨h1, h2⟩ := h
        subst h1
        subst h2
        exact ⟨rfl, shiftUntilFree_not_overlaps regions (xFrom, xTo)⟩
    · have hov' : overlaps regions (xFrom, xTo) = false := by
        cases hb : overlaps regions (xFrom, xTo)
        · rfl
        · exact absurd hb hov
      simp only [allocate, hxt, if_false, hov', Bool.false_eq_true, Except.ok.injEq,
        Prod.mk.injEq] at h
      obtain ⟨h1, h2⟩ := h
      subst h1
      subst h2
      exact ⟨rfl, hov'⟩

end GSA

/-- Appending a freshly allocated region (which overlaps none of the recorded
ones) preserves pairwise non-overlap. -/
theorem pairwise_append_region {regions : List AllocatedRegion} {id : ℕ} {d : ℚ × ℚ}
    (hpw : regions.Pairwise fun r1 r2 => ¬regionsOverlap r1 r2)
    (hfree : GSA.overlaps regions d = false) :
    (regions ++ [AllocatedRegion.mk id d.1 d.2]).Pairwise fun r1 r2 => ¬regionsOverlap r1 r2 := by
  rw [List.pairwise_append]
  refine ⟨hpw, List.pairwise_singleton _ _, ?_⟩
  intro r hr r' hr'
  have hr'' : r' = AllocatedRegion.mk id d.1 d.2 := List.mem_singleton.mp hr'
  subst hr''
  have hcase := (GSA.overlaps_eq_false_iff regions d).mp hfree r hr
  unfold regionsOverlap
  rw [not_not]
  rcases hcase with h1 | h1
  · exact Or.inr h1
  · exact Or.inl h1

/-- C1 helper: one successful `allocate` call preserves pairwise non-overlap
of the recorded regions. -/
theorem allocate_preserves_pairwise {regions regions1 : List AllocatedRegion}
    {xFrom xTo : ℚ} {id : ℕ} {upsert : Bool} {d : ℚ × ℚ}
    (hpw : regions.Pairwise fun r1 r2 => ¬regionsOverlap r1 r2)
    (h : GSA.allocate regions xFrom xTo id upsert = .ok (d, regions1)) :
    regions1.Pairwise fun r1 r2 => ¬regionsOverlap r1 r2 := by
  obtain ⟨rfl, hfree⟩ := GSA.allocate_ok_shape h
  exact pairwise_append_region hpw hfree

/-- C1: after any sequence of `allocate` calls on one GSA instance (failed
calls record nothing), the recorded regions are pairwise non-overlapping
under the spec's overlap relation `NOT(b ≤ c OR a ≥ d)`; each simulated
generation submits exactly such a call sequence to its own fresh allocator. -/
theorem allocSeq_pairwise_nonoverlap (reqs : List (ℚ × ℚ × ℕ × Bool)) :
    (applyAllocs reqs []).Pairwise fun r1 r2 => ¬regionsOverlap r1 r2 := by
  have main : ∀ (l : List (ℚ × ℚ × ℕ × Bool)) (regions : List AllocatedRegion),
      regions.Pairwise (fun r1 r2 => ¬regionsOverlap r1 r2) →
      (applyAllocs l regions).Pairwise fun r1 r2 => ¬regionsOverlap r1 r2 := by
    intro l
    induction l with
    | nil =>
      intro regions h
      simpa [applyAllocs] using h
    | cons req rest ih =>
      intro regions h
      obtain ⟨xFrom, xTo, id, upsert⟩ := req
      simp only [applyAllocs]
      cases halloc : GSA.allocate regions xFrom xTo id upsert with
      | ok p =>
        obtain ⟨d, regions1⟩ := p
        exact ih regions1 (allocate_preserves_pairwise h halloc)
      | error e => exact ih regions h
  exact main reqs [] List.Pairwise.nil

/-- Helper: clearing the recorded `[0,10)` takes ten left unit shifts, so the
candidate `[0,10)` ends at `[-10,0)`. -/
theorem shiftUntilFree_zero_ten :
    GSA.shiftUntilFree [AllocatedRegion.mk 1 0 10] (0, 10) = (-10, 0) := by
  have h := GSA.shiftUntilFree_eq_of [AllocatedRegion.mk 1 0 10] (0, 10) 10 ?_ ?_
  · simpa using h
  · intro j hj
    interval_cases j <;> norm_num [GSA.overlaps]
  · norm_num [GSA.overlaps]

/-- C3 (counterexample): on a fresh GSA holding `[0,10)`, the second
`upsert = true` request for `[0,10)` is recorded at `[-10,0)` — not at the
interval `[-1,9)` stated by the claim. -/
theorem gsa_second_upsert_interval_counterexample :
    GSA.allocate [AllocatedRegion.mk 1 0 10] 0 10 2 true =
      .ok ((-10, 0), [AllocatedRegion.mk 1 0 10, AllocatedRegion.mk 2 (-10) 0]) ∧
    ((-10 : ℚ), (0 : ℚ)) ≠ ((-1 : ℚ), (9 : ℚ)) := by
  constructor
  · have hov : GSA.overlaps [AllocatedRegion.mk 1 0 10] (0, 10) = true := by
      norm_num [GSA.overlaps]
    norm_num [GSA.allocate, hov, shiftUntilFree_zero_ten]
  · intro hcon
    have := congrArg Prod.fst hcon
    norm_num at this

/-- C3 (amended): `allocate(0,10,id1,false)` then `allocate(0,10,id2,false)`
fails with a conflict error reporting `xFrom = 0`; `allocate(0,10,id1,true)`
then `allocate(0,10,id2,true)` succeeds, placing the second interval at
`[-10,0)` (ten left unit shifts, until it clears `[0,10)`). -/
theorem gsa_conflict_and_upsert_results :
    GSA.allocate [] 0 10 1 false = .ok ((0, 10), [AllocatedRegion.mk 1 0 10]) ∧
    GSA.allocate [AllocatedRegion.mk 1 0 10] 0 10 2 false =
      .error (.spaceAllocated (some 0)) ∧
    GSA.allocate [] 0 10 1 true = .ok ((0, 10), [AllocatedRegion.mk 1 0 10]) ∧
    GSA.allocate [AllocatedRegion.mk 1 0 10] 0 10 2 true =
      .ok ((-10, 0), [AllocatedRegion.mk 1 0 10, AllocatedRegion.mk 2 (-10) 0]) := by
  refine ⟨?_, ?_, ?_, ?_⟩ <;>
    norm_num [GSA.allocate, GSA.overlaps, GSA.getOverlapStartX, List.filter,
      shiftUntilFree_zero_ten]

/-- C4 (counterexample): with `nodeXPadding = 5` the width getter returns
`2 × 8 + 10 + 5 = 31` for the name `"ab"` — neither the fixed configured
`node.width = 40` nor the spec's `truncated length × charWidth + padding = 26`. -/
theorem node_width_spec_counterexample :
    ¬ specWidthC4 cfgC4 nameAB (xSpaceOfText cfgC4 nameAB) := by
  have hlen : nameAB.length = 2 := rfl
  norm_num [specWidthC4, xSpaceOfText, calculateTextWidth, cfgC4, cfgDefault, hlen]

/-- C4 (amended): for every configuration and name the node width getter
returns truncated-name length × char-width + text padding + node `xPadding`
(the fixed configured `node.width` is never consulted). -/
theorem node_width_formula (cfg : Config) (text : String) :
    xSpaceOfText cfg text =
      ((min text.length cfg.nodeMaxNameLength : ℕ) : ℚ) * cfg.textCharWidth +
        cfg.textPadding + cfg.nodeXPadding := by
  unfold xSpaceOfText calculateTextWidth
  by_cases hl : text.length > cfg.nodeMaxNameLength
  · simp only [hl, if_true]
    rw [min_eq_right (le_of_lt hl)]
  · simp only [hl, if_false]
    rw [min_eq_left (le_of_not_lt hl)]

/-- Helper: `Except.ok` is a left unit for bind (definitional; stated for rewriting). -/
theorem except_bind_ok {E A B : Type} (a : A) (k : A → Except E B) :
    (Except.ok a >>= k) = k a := rfl

/-- Bind propagates `Except.error` (definitional; stated for rewriting). -/
theorem except_bind_error {E A B : Type} (e : E) (k : A → Except E B) :
    ((Except.error e : Except E A) >>= k) = Except.error e := rfl

/-- Helper: a `reduce`-style accumulation of widths equals the accumulator
plus the sum of the individually computed widths, whenever all of them
compute. -/
theorem reduceXSpace_eq_sum {α : Type} (f : α → Except LayoutError ℚ) (l : List α)
    (ws : List ℚ) (acc : ℚ) (h : l.mapM f = .ok ws) :
    reduceXSpace f l acc = .ok (acc + ws.sum) := by
  induction l generalizing ws acc with
  | nil =>
    have h2 : Except.ok ([] : List ℚ) = Except.ok ws := h
    injection h2 with h3
    subst h3
    simp [reduceXSpace]
  | cons x xs ih =>
    rw [List.mapM_cons] at h
    cases hfx : f x with
    | error e =>
      rw [hfx, except_bind_error] at h
      cases h
    | ok w =>
      rw [hfx, except_bind_ok] at h
      cases hrest : xs.mapM f with
      | error e =>
        rw [hrest] at h
        have h2 : (Except.error e : Except LayoutError (List ℚ)) = Except.ok ws := h
        cases h2
      | ok rest =>
        rw [hrest] at h
        have h2 : Except.ok (w :: rest) = Except.ok ws := h
        injection h2 with h3
        subst h3
        simp only [reduceXSpace, hfx]
        rw [ih rest (acc + w) hrest]
        congr 1
        simp only [List.sum_cons]
        ring

/-- C5: a subgroup's footprint is the sum of its member footprints plus
(member count − 1) node-gaps, and a group's footprint is the sum of its
subgroup and member footprints plus (member count − 1) node-gaps — the gap
units counted by the source are those between direct members only. -/
theorem footprint_additivity (cfg : Config) (g : HGroup) (sg : HSubGroup)
    (sgWidths gSubSpaces gMemberWidths : List ℚ)
    (hsg : sg.members.mapM (HNode.xSpace cfg) = .ok sgWidths)
    (hgs : g.subGroups.mapM (HSubGroup.xSpace cfg) = .ok gSubSpaces)
    (hgm : g.members.mapM (HNode.xSpace cfg) = .ok gMemberWidths) :
    HSubGroup.xSpace cfg sg =
      .ok (sgWidths.sum + ((sg.members.length : ℚ) - 1) * cfg.nodeGap) ∧
    HGroup.xSpace cfg g =
      .ok (gSubSpaces.sum + gMemberWidths.sum + ((g.members.length : ℚ) - 1) * cfg.nodeGap) := by
  constructor
  · unfold HSubGroup.xSpace
    rw [reduceXSpace_eq_sum _ _ _ _ hsg]
    norm_num
  · unfold HGroup.xSpace
    rw [reduceXSpace_eq_sum _ _ _ _ hgs, reduceXSpace_eq_sum _ _ _ _ hgm]
    norm_num

/-- C5 witness: the footprint theorem applied to the named nodes `A`, `B`, `C`
under the default configuration (each node width `1 × 8 + 10 + 0 = 18`). -/
theorem footprint_additivity_witness :
    sgBC.members.mapM (HNode.xSpace cfgDefault) = .ok [18, 18] ∧
    gABC.subGroups.mapM (HSubGroup.xSpace cfgDefault) = .ok [56] ∧
    gABC.members.mapM (HNode.xSpace cfgDefault) = .ok [18] ∧
    HSubGroup.xSpace cfgDefault sgBC = .ok 56 ∧
    HGroup.xSpace cfgDefault gABC = .ok 74 := by
  have hB : HNode.xSpace cfgDefault nodeNamedB = .ok 18 := by
    have hlen : idB.length = 1 := rfl
    norm_num [HNode.xSpace, nodeNamedB, xSpaceOfText, calculateTextWidth, cfgDefault, hlen]
  have hC : HNode.xSpace cfgDefault nodeNamedC = .ok 18 := by
    have hlen : idC.length = 1 := rfl
    norm_num [HNode.xSpace, nodeNamedC, xSpaceOfText, calculateTextWidth, cfgDefault, hlen]
  have hA : HNode.xSpace cfgDefault nodeNamedA = .ok 18 := by
    have hlen : idA.length = 1 := rfl
    norm_num [HNode.xSpace, nodeNamedA, xSpaceOfText, calculateTextWidth, cfgDefault, hlen]
  have h1 : sgBC.members.mapM (HNode.xSpace cfgDefault) = .ok [18, 18] := by
    rw [show sgBC.members = [nodeNamedB, nodeNamedC] from rfl, List.mapM_cons, hB,
      except_bind_ok, List.mapM_cons, hC, except_bind_ok, List.mapM_nil]
    rfl
  have hsgx : HSubGroup.xSpace cfgDefault sgBC = .ok 56 := by
    unfold HSubGroup.xSpace
    rw [reduceXSpace_eq_sum _ _ _ _ h1]
    norm_num [sgBC, cfgDefault]
  have h2 : gABC.subGroups.mapM (HSubGroup.xSpace cfgDefault) = .ok [56] := by
    rw [show gABC.subGroups = [sgBC] from rfl, List.mapM_cons, hsgx, except_bind_ok,
      List.mapM_nil]
    rfl
  have h3 : gABC.members.mapM (HNode.xSpace cfgDefault) = .ok [18] := by
    rw [show gABC.members = [nodeNamedA] from rfl, List.mapM_cons, hA, except_bind_ok,
      List.mapM_nil]
    rfl
  refine ⟨h1, h2, h3, ?_, ?_⟩
  · rw [(footprint_additivity cfgDefault gABC sgBC [18, 18] [56] [18] h1 h2 h3).1]
    norm_num [sgBC, cfgDefault]
  · rw [(footprint_additivity cfgDefault gABC sgBC [18, 18] [56] [18] h1 h2 h3).2]
    norm_num [gABC, cfgDefault]

/-- C6 (counterexample): with node height 80, generation padding 50 and
generation gap 100, a one-generation graph is constructed with height
`(80 + 50) + 2 × 100 = 330`, while the claim's formula gives
`1 × (80 + 100) + 2 × 100 = 380`. -/
theorem graph_height_spec_counterexample :
    (HGraph.make cfgC6 [genEmpty]).height = 330 ∧
    specHeightC6 cfgC6 1 = 380 ∧ ((330 : ℚ) ≠ 380) := by
  refine ⟨?_, ?_, by norm_num⟩ <;>
    norm_num [HGraph.make, specHeightC6, cfgC6, cfgDefault]

/-- C6 (amended): the graph height is fixed at construction time as
generation count × (node height + generation padding) plus
(generation count + 1) generation-gap units — one gap before each generation
and one extra after the last. -/
theorem graph_height_formula (cfg : Config) (gens : List HGeneration) :
    (HGraph.make cfg gens).height =
      (gens.length : ℚ) * (cfg.nodeHeight + cfg.generationPadding) +
        ((gens.length : ℚ) + 1) * cfg.generationGap := by
  unfold HGraph.make
  push_cast
  ring

/-- C2 (code evaluated at the failing input): running `calculate` on the
one-node tree `A` succeeds, but the returned node has `name = none` (the
constructor never assigns the declared `name` property) and `x = y = none`
(the simulation pass positions generations and groups only, never the
individual nodes). -/
theorem calculate_single_node_missing_fields :
    HEngine.calculate cfgDefault treeA 0 =
      (Except.ok
        ({ height := 280, width := some 200,
           generations := [{ id := 0, x := some 0, y := some 40, xSpace := none,
                             groups := [0] }],
           genHeight := 80, gapHeight := 100, genSpace := 80, gapSpace := 200 },
         [{ x := some 0, y := some 40,
            members := [{ id := idA, name := none, x := none, y := none, anchors := none }],
            subGroups := [],
            anchors := some { top := none, bottom := some ⟨0, -100⟩ },
            parentGroup := none }]),
       1) := by
  norm_num [HEngine.calculate, HEngine.structurePass, HEngine.structureLoop,
    HEngine.pushGroupAt, HEngine.addMemberAt, HEngine.simulate, HEngine.simGen0,
    HEngine.simRest, HEngine.calcGroupAnchorY, HGraph.make, HGeneration.create,
    HNode.make, cfgDefault, treeA, dummyGroup, List.headI, List.getD]

/-- C7 (code evaluated at the failing input): for every configuration, running
`calculate` on the two-generation tree `A → B` throws the `TypeError` raised
while computing the child group's width (`this.name` is never assigned), so
the simulation never reaches the final width computation. -/
theorem calculate_two_gen_type_error (cfg : Config) (idIndex : ℕ) :
    (HEngine.calculate cfg treeAB idIndex).1 = .error .nameTypeError := by
  norm_num [HEngine.calculate, HEngine.structurePass, HEngine.structureLoop,
    HEngine.pushGroupAt, HEngine.addMemberAt, HEngine.simulate, HEngine.simGen0,
    HEngine.simRest, HEngine.simGroups, HGroup.xSpace, reduceXSpace, HNode.xSpace,
    HEngine.calcGroupAnchorY, HEngine.calcGenY, HGraph.make, HGeneration.create,
    HNode.make, HNode.fromRaw, treeAB, treeB, dummyGroup, List.headI, List.getD]

/-- Helper for C9: the output generations and arena of the structuring loop do
not depend on the threaded `HGeneration.idIndex` counter (every generation is
created with `reqId = some depth`, so the counter never reaches an id). -/
theorem structureLoop_counter_irrel :
    ∀ (arr : List HRawNode) (gens : List HGeneration) (arena : List HGroup)
      (g d k k' : ℕ),
      (HEngine.structureLoop arr gens arena g d k).1 =
        (HEngine.structureLoop arr gens arena g d k').1 ∧
      (HEngine.structureLoop arr gens arena g d k).2.1 =
        (HEngine.structureLoop arr gens arena g d k').2.1 := by
  have main := HEngine.structureLoop.induct
    (fun arr gens arena p d k => ∀ k',
      (HEngine.structurePass arr gens arena p d k).1 =
        (HEngine.structurePass arr gens arena p d k').1 ∧
      (HEngine.structurePass arr gens arena p d k).2.1 =
        (HEngine.structurePass arr gens arena p d k').2.1)
    (fun arr gens arena g d k => ∀ k',
      (HEngine.structureLoop arr gens arena g d k).1 =
        (HEngine.structureLoop arr gens arena g d k').1 ∧
      (HEngine.structureLoop arr gens arena g d k).2.1 =
        (HEngine.structureLoop arr gens arena g d k').2.1)
    ?_ ?_ ?_
  · exact fun arr gens arena g d k k' => main arr gens arena g d k k'
  · -- structurePass case
    intro arr gens arena parentGroup depth idIndex
    dsimp only
    intro IH k'
    simp only [HEngine.structurePass]
    by_cases hd : depth < gens.length
    · simp only [hd, dif_pos, if_pos] at IH ⊢
      exact IH k'
    · simp only [hd, dif_neg, if_neg, not_false_iff, HGeneration.create, Option.getD] at IH ⊢
      exact IH (k' + 1)
  · -- structureLoop nil case
    intro gens arena gIdx depth idIndex k'
    simp [HEngine.structureLoop]
  · -- structureLoop cons case
    intro gens arena gIdx depth idIndex rest id name children partners
    dsimp only
    intro IH1 IH1b IH2
    simp only [dite_eq_ite] at IH1 IH2
    intro k'
    simp only [HEngine.structureLoop]
    by_cases hch : children.length > 0
    · simp only [if_pos hch] at IH2 ⊢
      obtain ⟨e1, e2⟩ := IH1 k'
      rw [← e1, ← e2]
      exact IH2 _
    · simp only [if_neg hch] at IH2 ⊢
      exact IH2 k'

/-- Helper for C9: the structuring pass's generations and arena do not depend
on the threaded id counter. -/
theorem structurePass_counter_irrel (arr : List HRawNode) (gens : List HGeneration)
    (arena : List HGroup) (p : Option ℕ) (d k k' : ℕ) :
    (HEngine.structurePass arr gens arena p d k).1 =
      (HEngine.structurePass arr gens arena p d k').1 ∧
    (HEngine.structurePass arr gens arena p d k).2.1 =
      (HEngine.structurePass arr gens arena p d k').2.1 := by
  simp only [HEngine.structurePass]
  by_cases hd : d < gens.length
  · simp only [if_pos hd]
    exact structureLoop_counter_irrel arr _ _ _ d k k'
  · simp only [if_neg hd, HGeneration.create, Option.getD]
    exact structureLoop_counter_irrel arr _ _ _ d (k + 1) (k' + 1)

/-- C9: `calculate` is deterministic across repeated runs — its result does
not depend on the value of the process-wide `HGeneration.idIndex` counter
mutated by earlier runs, so two runs over the identical tree and identical
configuration return identical graphs (coordinates included). -/
theorem calculate_deterministic (cfg : Config) (root : HRawNode) (i j : ℕ) :
    (HEngine.calculate cfg root i).1 = (HEngine.calculate cfg root j).1 := by
  obtain ⟨h1, h2⟩ := structurePass_counter_irrel [root] [] [] none 0 i j
  simp only [HEngine.calculate]
  rw [h1, h2]
  cases hs : HEngine.simulate cfg (HGraph.make cfg (HEngine.structurePass [root] [] [] none 0 j).1)
      (HEngine.structurePass [root] [] [] none 0 j).2.1 with
  | error e => simp
  | ok v => simp

/-- Helper for C10: pushing a group at a positive depth leaves the entry at
index 0 of the generation list unchanged. -/
theorem pushGroupAt_get?_zero (gens : List HGeneration) (depth gIdx : ℕ) (hd : 1 ≤ depth) :
    (HEngine.pushGroupAt gens depth gIdx).get? 0 = gens.get? 0 := by
  unfold HEngine.pushGroupAt
  cases hG : gens.get? depth with
  | none => rfl
  | some gen => exact List.get?_set_ne _ _ (by omega)

/-- Helper: a list with an entry at index 0 is nonempty. -/
theorem ne_nil_of_get?_zero {α : Type} {l : List α} {a : α} (h : l.get? 0 = some a) :
    l ≠ [] := by
  intro hl
  subst hl
  cases h

/-- Helper for C10: every recursive call of the structuring pass below the
root (depth ≥ 1, nonempty generation list) leaves the generation at index 0
untouched, so generation 0 keeps exactly the one group the top-level call
pushed into it. -/
theorem structureLoop_preserves_gen0 :
    ∀ (arr : List HRawNode) (gens : List HGeneration) (arena : List HGroup)
      (g d k : ℕ), gens ≠ [] →
      ((HEngine.structureLoop arr gens arena g d k).1).get? 0 = gens.get? 0 := by
  have main := HEngine.structureLoop.induct
    (fun arr gens arena p d k => 1 ≤ d → gens ≠ [] →
      ((HEngine.structurePass arr gens arena p d k).1).get? 0 = gens.get? 0)
    (fun arr gens arena g d k => gens ≠ [] →
      ((HEngine.structureLoop arr gens arena g d k).1).get? 0 = gens.get? 0)
    ?_ ?_ ?_
  · exact fun arr gens arena g d k hne => main arr gens arena g d k hne
  · -- structurePass case
    intro arr gens arena parentGroup depth idIndex
    dsimp only
    intro IH
    simp only [dite_eq_ite] at IH
    intro hd hne
    obtain ⟨g0, hg0⟩ : ∃ a, gens.get? 0 = some a := by
      cases gens with
      | nil => exact absurd rfl hne
      | cons x xs => exact ⟨x, rfl⟩
    simp only [HEngine.structurePass]
    by_cases hlt : depth < gens.length
    · simp only [if_pos hlt] at IH ⊢
      have hpre : (HEngine.pushGroupAt gens depth arena.length).get? 0 = gens.get? 0 :=
        pushGroupAt_get?_zero gens depth arena.length hd
      rw [IH (ne_nil_of_get?_zero (hpre.trans hg0)), hpre]
    · simp only [if_neg hlt, HGeneration.create, Option.getD] at IH ⊢
      have happ : ∀ newGen : HGeneration, (gens ++ [newGen]).get? 0 = gens.get? 0 := by
        intro newGen
        apply List.get?_append
        cases gens with
        | nil => exact absurd rfl hne
        | cons x xs => simp
      have hpre : (HEngine.pushGroupAt (gens ++ [({ id := depth, x := none, y := none, xSpace := none, groups := [] } : HGeneration)]) depth arena.length).get? 0 = gens.get? 0 := by
        rw [pushGroupAt_get?_zero _ depth arena.length hd, happ]
      rw [IH (ne_nil_of_get?_zero (hpre.trans hg0)), hpre]
  · -- structureLoop nil case
    intro gens arena gIdx depth idIndex hne
    simp [HEngine.structureLoop]
  · -- structureLoop cons case
    intro gens arena gIdx depth idIndex rest id name children partners
    dsimp only
    intro IH1 IH1b IH2
    simp only [dite_eq_ite] at IH1 IH2
    intro hne
    obtain ⟨g0, hg0⟩ : ∃ a, gens.get? 0 = some a := by
      cases gens with
      | nil => exact absurd rfl hne
      | cons x xs => exact ⟨x, rfl⟩
    simp only [HEngine.structureLoop]
    by_cases hch : children.length > 0
    · simp only [if_pos hch] at IH2 ⊢
      have hpass := IH1 (by omega) hne
      rw [IH2 (ne_nil_of_get?_zero (hpass.trans hg0)), hpass]
    · simp only [if_neg hch] at IH2 ⊢
      exact IH2 hne

/-- Helper for C10: the structuring pass started from a single root array
records exactly one group (the root group, arena index 0) in generation 0. -/
theorem structure_gen0_one_group (root : HRawNode) (k : ℕ) :
    ((HEngine.structurePass [root] [] [] none 0 k).1).get? 0 =
      some { id := 0, x := none, y := none, xSpace := none, groups := [0] } := by
  simp only [HEngine.structurePass]
  norm_num [HGeneration.create, HEngine.pushGroupAt]
  rw [← List.get?_eq_getElem?]
  rw [structureLoop_preserves_gen0 [root] _ _ 0 0 (k + 1) (by simp)]
  rfl

/-- Helper for C10: the allocator never raises the generation-count error. -/
theorem allocate_no_initGen (regions : List AllocatedRegion) (xFrom xTo : ℚ) (id : ℕ)
    (upsert : Bool) :
    GSA.allocate regions xFrom xTo id upsert ≠ .error .initialGenGroupCount := by
  unfold GSA.allocate
  by_cases h1 : xFrom > xTo
  · simp [h1]
  · by_cases h2 : GSA.overlaps regions (xFrom, xTo) = true
    · cases upsert <;> simp [h1, h2]
    · have h2f : GSA.overlaps regions (xFrom, xTo) = false := by
        cases hb : GSA.overlaps regions (xFrom, xTo)
        · rfl
        · exact absurd hb h2
      cases upsert <;> simp [h1, h2f]

/-- Helper for C10: a failed width reduction names an element that failed. -/
theorem reduceXSpace_error {α : Type} (f : α → Except LayoutError ℚ) (l : List α)
    (acc : ℚ) (e : LayoutError) (h : reduceXSpace f l acc = .error e) :
    ∃ x ∈ l, f x = .error e := by
  induction l generalizing acc with
  | nil => cases h
  | cons x xs ih =>
    simp only [reduceXSpace] at h
    cases hfx : f x with
    | error e1 =>
      rw [hfx] at h
      cases h
      exact ⟨x, List.mem_cons_self x xs, hfx⟩
    | ok w =>
      rw [hfx] at h
      obtain ⟨y, hy, hfy⟩ := ih (acc + w) h
      exact ⟨y, List.mem_cons_of_mem x hy, hfy⟩

/-- Helper for C10: a node width computation only ever throws the name
`TypeError`. -/
theorem node_xSpace_error (cfg : Config) (n : HNode) (e : LayoutError)
    (h : HNode.xSpace cfg n = .error e) : e = .nameTypeError := by
  rcases hn : n.name with _ | s
  · simp only [HNode.xSpace, hn, Except.error.injEq] at h
    exact h.symm
  · simp [HNode.xSpace, hn] at h

/-- Helper for C10: a subgroup width computation only ever throws the name
`TypeError`. -/
theorem subGroup_xSpace_error (cfg : Config) (sg : HSubGroup) (e : LayoutError)
    (h : HSubGroup.xSpace cfg sg = .error e) : e = .nameTypeError := by
  unfold HSubGroup.xSpace at h
  cases hr : reduceXSpace (HNode.xSpace cfg) sg.members 0 with
  | error e1 =>
    rw [hr] at h
    cases h
    obtain ⟨x, hx, hfx⟩ := reduceXSpace_error _ _ _ _ hr
    exact node_xSpace_error cfg x e hfx
  | ok w =>
    rw [hr] at h
    cases h

/-- Helper for C10: a group width computation only ever throws the name
`TypeError`. -/
theorem group_xSpace_error (cfg : Config) (g : HGroup) (e : LayoutError)
    (h : HGroup.xSpace cfg g = .error e) : e = .nameTypeError := by
  unfold HGroup.xSpace at h
  cases hr : reduceXSpace (HSubGroup.xSpace cfg) g.subGroups 0 with
  | error e1 =>
    rw [hr] at h
    cases h
    obtain ⟨x, hx, hfx⟩ := reduceXSpace_error _ _ _ _ hr
    exact subGroup_xSpace_error cfg x e hfx
  | ok w1 =>
    rw [hr] at h
    cases hm : reduceXSpace (HNode.xSpace cfg) g.members 0 with
    | error e2 =>
      rw [hm] at h
      cases h
      obtain ⟨x, hx, hfx⟩ := reduceXSpace_error _ _ _ _ hm
      exact node_xSpace_error cfg x e hfx
    | ok w2 =>
      rw [hm] at h
      cases h

/-- Helper for C10: the per-generation group loop never raises the
generation-count error. -/
theorem simGroups_no_initGen (cfg : Config) (graph : HGraph) :
    ∀ (l : List ℕ) (arena : List HGroup) (regions : List AllocatedRegion)
      (genDims : ℚ × ℚ),
      HEngine.simGroups cfg graph l arena regions genDims ≠ .error .initialGenGroupCount := by
  intro l
  induction l with
  | nil =>
    intro arena regions genDims
    simp [HEngine.simGroups]
  | cons gIdx rest ih =>
    intro arena regions genDims
    simp only [HEngine.simGroups]
    split
    · simp
    · split
      · simp
      · split
        · rename_i e hx
          have he := group_xSpace_error cfg _ e hx
          subst he
          simp
        · split
          · rename_i w hw e halloc
            intro hcon
            injection hcon with hcon2
            subst hcon2
            exact allocate_no_initGen _ _ _ _ _ halloc
          · apply ih

/-- Helper for C10: the later-generation loop never raises the
generation-count error either. -/
theorem simRest_no_initGen (cfg : Config) (graph : HGraph) :
    ∀ (l : List HGeneration) (prev : HGeneration) (arena : List HGroup)
      (graphDims : ℚ × ℚ),
      HEngine.simRest cfg graph l prev arena graphDims ≠ .error .initialGenGroupCount := by
  intro l
  induction l with
  | nil =>
    intro prev arena graphDims
    simp [HEngine.simRest]
  | cons gen rest ih =>
    intro prev arena graphDims
    simp only [HEngine.simRest]
    split
    · split
      · rename_i e hsim
        intro hcon
        injection hcon with h2
        subst h2
        exact simGroups_no_initGen cfg graph _ _ _ _ hsim
      · split
        · rename_i e hrec
          intro hcon
          injection hcon with h2
          subst h2
          exact absurd hrec (ih _ _ _)
        · simp
    · simp

/-- C10: the structuring pass places exactly one group into generation 0, so
`calculate` can never abort with the fatal initial-generation group-count
error — that branch is unreachable from the public entry point. -/
theorem calculate_never_initGenCount (cfg : Config) (root : HRawNode) (k : ℕ) :
    (HEngine.calculate cfg root k).1 ≠ .error .initialGenGroupCount := by
  have hgen := structure_gen0_one_group root k
  simp only [HEngine.calculate]
  cases hl : (HEngine.structurePass [root] [] [] none 0 k).1 with
  | nil =>
    rw [hl] at hgen
    cases hgen
  | cons g0 rest =>
    rw [hl] at hgen
    have hg0 : g0 = { id := 0, x := none, y := none, xSpace := none, groups := [0] } := by
      simpa using hgen
    subst hg0
    simp only [HEngine.simulate, HGraph.make, hl, HEngine.simGen0]
    norm_num
    intro hcon
    split at hcon
    · rename_i x e heq
      injection hcon with h2
      subst h2
      split at heq
      · rename_i e2 hrest
        injection heq with h3
        subst h3
        exact absurd hrest (simRest_no_initGen cfg _ _ _ _ _)
      · cases heq
    · cases hcon
